import Mathlib

/-!
Verification of the CLImax invocation engine (src/climax.py) against its
natural-language specification.

The Python data model and the pure parts of the engine are shallowly
embedded: Python dicts become association lists, Python runtime values
(`Any`) become the inductive `Value`, Python floats are modelled by `ℚ`,
and the subprocess boundary is modelled by an explicit `ChildBehavior`
outcome parameter.  Every definition is translated from the source file
except where a doc comment says `Modelled from the spec:` (those model
engine code that the repository's tests reference but that is not part of
src/climax.py).
-/

namespace Climax

/-- A Python runtime value as it may appear in a tool-invocation argument
map (JSON-ish values delivered by the protocol layer): `None`, `bool`,
`int`, `float` (modelled by `ℚ`), or `str`. -/
inductive Value where
  | vNone : Value
  | vBool : Bool → Value
  | vInt : Int → Value
  | vFloat : ℚ → Value
  | vStr : String → Value
deriving DecidableEq, Repr

/-- Python `str(value)`.  The rendering of a float is a modelling choice
(the claims under verification never depend on the exact text of a float,
only on determinism), all other cases match CPython exactly. -/
def pyStr : Value → String
  | .vNone => "None"
  | .vBool true => "True"
  | .vBool false => "False"
  | .vInt n => toString n
  | .vFloat q => toString q
  | .vStr s => s

/-- Python truthiness, `bool(value)`. -/
def pyTruthy : Value → Bool
  | .vNone => false
  | .vBool b => b
  | .vInt n => n != 0
  | .vFloat q => q != 0
  | .vStr s => s != ""

/-- First-match lookup in an association list (Python dict read
`d.get(k)` / `d[k]`; dict keys are unique, so first-match is exact). -/
def alookup : List (String × α) → String → Option α
  | [], _ => none
  | (k, v) :: rest, key => if k = key then some v else alookup rest key

/-- A Python dict with string keys, as an insertion-ordered association
list with unique keys. -/
abbrev Args := List (String × Value)

/-- Python `arguments.get(name)`: `None` both for a missing key and for an
explicit `None` value. -/
def pyGet (args : Args) (name : String) : Value :=
  (alookup args name).getD .vNone

/-- Python dict assignment `m[k] = v`: replaces the value in place (the
key keeps its original insertion position) when the key exists, otherwise
appends at the end.  Replacement is written over every matching pair;
since dict keys are unique this is the same as replacing the one pair. -/
def dictInsert (m : List (String × α)) (k : String) (v : α) : List (String × α) :=
  if (alookup m k).isSome then m.map (fun p => if p.1 = k then (k, v) else p)
  else m ++ [(k, v)]

/-- Helper for `pysplit`: accumulates the current (reversed) token. -/
def wsSplitAux : List Char → List Char → List String
  | cur, [] => if cur.isEmpty then [] else [String.mk cur.reverse]
  | cur, c :: rest =>
    if c.isWhitespace then
      if cur.isEmpty then wsSplitAux [] rest
      else String.mk cur.reverse :: wsSplitAux [] rest
    else wsSplitAux (c :: cur) rest

/-- Python `s.split()` (no separator): split on runs of whitespace,
discarding empty tokens. -/
def pysplit (s : String) : List String :=
  wsSplitAux [] s.data

/-- Python `s.strip()`: remove leading and trailing whitespace. -/
def pyStrip (s : String) : String :=
  String.mk (((s.data.dropWhile Char.isWhitespace).reverse.dropWhile
    Char.isWhitespace).reverse)

/-- Source `ArgType` (src/climax.py): the four declared argument types. -/
inductive ArgType where
  | string | integer | number | boolean
deriving DecidableEq, Repr

/-- Source `ToolArg` (src/climax.py): one argument of a CLI tool.  Pydantic
defaults: `type=string`, `required=False`, `default=None`, `flag=None`,
`positional=False`, `enum=None`. -/
structure ToolArg where
  name : String
  description : String := ""
  type : ArgType := .string
  required : Bool := false
  default : Value := .vNone
  flag : Option String := none
  positional : Bool := false
  enum : Option (List String) := none
deriving DecidableEq, Repr

/-- Source `ToolDef` (src/climax.py): one tool mapping to a CLI subcommand.
`timeout` is a Python float, modelled by `ℚ`. -/
structure ToolDef where
  name : String
  description : String
  command : String := ""
  args : List ToolArg := []
  timeout : Option ℚ := none
deriving DecidableEq, Repr

/-- Source `CLImaxConfig` (src/climax.py): top-level configuration of one CLI. -/
structure CLImaxConfig where
  name : String := "climax"
  description : String := ""
  command : String
  env : List (String × String) := []
  working_dir : Option String := none
  tools : List ToolDef
deriving DecidableEq, Repr

/-- Auto-generated flag: `f"--{arg_def.name.replace('_', '-')}"`.  The
replacement pattern is a single character, so `str.replace` is a
character-wise map. -/
def autoFlag (name : String) : String :=
  "--" ++ String.mk (name.data.map (fun c => if c = '_' then '-' else c))

/-- The flag token used for a non-positional argument: the declared
`flag` unless it is falsy (`None` or `""`), else the auto-generated one
(`if not flag: flag = f"--{...}"`). -/
def flagOf (a : ToolArg) : String :=
  match a.flag with
  | some f => if f = "" then autoFlag a.name else f
  | none => autoFlag a.name

/-- Python `flag.endswith("=")`. -/
def flagEndsWithEq (f : String) : Bool :=
  f.data.getLast? = some '='

/-- Value resolution in `build_command`'s second pass:
`value = arguments.get(name)`; `if value is None and default is not None:
value = default`.  A result of `vNone` means the argument is skipped. -/
def resolveFlagValue (args : Args) (a : ToolArg) : Value :=
  let value := pyGet args a.name
  if value = .vNone ∧ a.default ≠ .vNone then a.default else value

/-- The tokens contributed by one non-positional argument in
`build_command`'s second pass (src/climax.py lines 427-449): skip when the
resolved value is `None`; boolean args contribute only the flag and only
for `value is True or value == "true"`; a flag ending in `=` contributes
one concatenated token; otherwise flag and stringified value are two
tokens. -/
def flagContrib (args : Args) (a : ToolArg) : List String :=
  let value := resolveFlagValue args a
  if value = .vNone then []
  else if a.type = .boolean then
    if value = .vBool true ∨ value = .vStr "true" then [flagOf a] else []
  else if flagEndsWithEq (flagOf a) then [flagOf a ++ pyStr value]
  else [flagOf a, pyStr value]

/-- Source `build_command` (src/climax.py lines 401-451): base command split on
whitespace, then subcommand tokens, then a first pass appending every
present positional argument in declaration order, then a second pass
appending every non-positional argument's contribution in declaration
order.  Each imperative `cmd.append(x)` under a condition is transcribed
as appending the singleton-or-empty list. -/
def build_command (base_cmd : String) (tool_def : ToolDef) (arguments : Args) :
    List String :=
  let cmd := pysplit base_cmd
  let cmd := if tool_def.command ≠ "" then cmd ++ pysplit tool_def.command else cmd
  let cmd := tool_def.args.foldl (fun c a =>
    c ++ (if a.positional && (alookup arguments a.name).isSome
          then [pyStr (pyGet arguments a.name)] else [])) cmd
  let cmd := tool_def.args.foldl (fun c a =>
    c ++ (if a.positional then [] else flagContrib arguments a)) cmd
  cmd

/-- Spec-side description (claim wording): the tokens of the positional
pass — every present positional argument, in declaration order. -/
def positionalTokens (tool_def : ToolDef) (arguments : Args) : List String :=
  (tool_def.args.filter
      (fun a => a.positional && (alookup arguments a.name).isSome)).map
    (fun a => pyStr (pyGet arguments a.name))

/-- Spec-side description (claim wording): the tokens of the flag pass —
every non-positional argument's contribution, in declaration order. -/
def flagPassTokens (tool_def : ToolDef) (arguments : Args) : List String :=
  (tool_def.args.filter (fun a => !a.positional)).flatMap (flagContrib arguments)

/-- Spec-side description (claim wording for the amended boolean rule):
a boolean argument contributes exactly its flag token when the resolved
value is the boolean `True` or the exact string `"true"`, and nothing
otherwise — never a value token. -/
def boolFlagSpec (args : Args) (a : ToolArg) : List String :=
  if resolveFlagValue args a = .vBool true ∨ resolveFlagValue args a = .vStr "true"
  then [flagOf a] else []

/-- A regular expression over characters.  Policy `pattern` strings are
compiled by Python `re`; the embedding works with the compiled regex
directly (an abstract syntax tree) since the claims concern matching
semantics, not pattern-string parsing. -/
inductive Regex where
  | emp : Regex
  | eps : Regex
  | chr : Char → Regex
  | anyChar : Regex
  | alt : Regex → Regex → Regex
  | cat : Regex → Regex → Regex
  | star : Regex → Regex
deriving DecidableEq, Repr

/-- Does the regex accept the empty string? -/
def Regex.nullable : Regex → Bool
  | .emp => false
  | .eps => true
  | .chr _ => false
  | .anyChar => false
  | .alt r s => r.nullable || s.nullable
  | .cat r s => r.nullable && s.nullable
  | .star _ => true

/-- Brzozowski derivative of a regex with respect to one character. -/
def Regex.deriv : Regex → Char → Regex
  | .emp, _ => .emp
  | .eps, _ => .emp
  | .chr c, d => if c = d then .eps else .emp
  | .anyChar, _ => .eps
  | .alt r s, d => .alt (r.deriv d) (s.deriv d)
  | .cat r s, d =>
    if r.nullable then .alt (.cat (r.deriv d) s) (s.deriv d)
    else .cat (r.deriv d) s
  | .star r, d => .cat (r.deriv d) (.star r)

/-- Whole-list regex matching by iterated derivatives. -/
def Regex.rmatch (r : Regex) (cs : List Char) : Bool :=
  (cs.foldl Regex.deriv r).nullable

/-- Python `re.fullmatch(pattern, value)` viewed as a boolean: the whole
string must be accepted. -/
def fullmatch (r : Regex) (s : String) : Bool :=
  r.rmatch s.data

/-- A printable rendering of a regex, standing in for the policy's
pattern string inside error messages. -/
def Regex.render : Regex → String
  | .emp => "[]"
  | .eps => ""
  | .chr c => String.mk [c]
  | .anyChar => "."
  | .alt r s => "(" ++ r.render ++ "|" ++ s.render ++ ")"
  | .cat r s => r.render ++ s.render
  | .star r => "(" ++ r.render ++ ")*"

/-- Source `ArgConstraint` (src/climax.py): per-argument policy constraint.
`pattern` is held as a compiled regex; `min`/`max` are Python floats,
modelled by `ℚ`. -/
structure ArgConstraint where
  pattern : Option Regex := none
  min : Option ℚ := none
  max : Option ℚ := none
deriving DecidableEq, Repr

/-- Source `ToolPolicy` (src/climax.py): per-tool policy. -/
structure ToolPolicy where
  description : Option String := none
  args : List (String × ArgConstraint) := []
deriving DecidableEq, Repr

/-- Source `ExecutorType` (src/climax.py). -/
inductive ExecutorType where
  | local | docker
deriving DecidableEq, Repr

/-- Source `ExecutorConfig` (src/climax.py).  The `model_post_init` check
(docker requires an image) is a load-time validation, not needed by the
claims under verification. -/
structure ExecutorConfig where
  type : ExecutorType := .local
  image : Option String := none
  volumes : List String := []
  working_dir : Option String := none
  network : Option String := none
deriving DecidableEq, Repr

/-- Source `DefaultPolicy` (src/climax.py). -/
inductive DefaultPolicy where
  | enabled | disabled
deriving DecidableEq, Repr

/-- Source `PolicyConfig` (src/climax.py): top-level policy configuration.
The pydantic default of the `default` field is `disabled`. -/
structure PolicyConfig where
  executor : ExecutorConfig := {}
  default : DefaultPolicy := .disabled
  tools : List (String × ToolPolicy) := []
deriving DecidableEq, Repr

/-- Source `ResolvedTool` (src/climax.py): a tool definition paired with its
parent CLI config and policy overlay fields. -/
structure ResolvedTool where
  tool : ToolDef
  base_command : String
  env : List (String × String) := []
  working_dir : Option String := none
  description_override : Option String := none
  arg_constraints : List (String × ArgConstraint) := []
deriving DecidableEq, Repr

/-- The `ResolvedTool` built by `load_configs` for one tool of one
config (policy overlay fields left at their defaults). -/
def resolveFromConfig (config : CLImaxConfig) (tool_def : ToolDef) : ResolvedTool :=
  { tool := tool_def
    base_command := config.command
    env := config.env
    working_dir := config.working_dir }

/-- The inner assignment of the `load_configs` loop:
`tool_map[tool_def.name] = ResolvedTool(...)`. -/
def insertTool (config : CLImaxConfig) (m : List (String × ResolvedTool))
    (tool_def : ToolDef) : List (String × ResolvedTool) :=
  dictInsert m tool_def.name (resolveFromConfig config tool_def)

/-- Source `load_configs` (src/climax.py lines 174-216), with file reading and
YAML parsing factored out: merge the tools of already-parsed configs into
the registry dict (later assignment to an existing name replaces the
value with Python-dict semantics, see `dictInsert`), and pick the server
name.  Logging is omitted. -/
def load_configs (configs : List CLImaxConfig) :
    String × List (String × ResolvedTool) :=
  let tool_map := configs.foldl (fun m config => config.tools.foldl (insertTool config) m) []
  let names := configs.map (·.name)
  ((if names.length = 1 then names.headD "climax" else "climax"), tool_map)

/-- The last tool in a list carrying the given name, if any (the
definition that wins under Python-dict overwriting). -/
def lastNamed : List ToolDef → String → Option ToolDef
  | [], _ => none
  | td :: tds, x =>
    match lastNamed tds x with
    | some td' => some td'
    | none => if td.name = x then some td else none

/-- Index of the first occurrence of a key in a list of keys. -/
def firstIdx : List String → String → Nat
  | [], _ => 0
  | k :: ks, x => if k = x then 0 else firstIdx ks x + 1

/-- Python `float(value)` restricted to the value shapes that can occur
here: `None` raises (→ `none`), booleans give 0/1, ints and floats
convert, and strings are parsed as optionally signed decimal literals
(exotic accepted forms such as exponents, `inf` and `nan` are outside
the model; no verified claim depends on them). -/
def decDigits? (cs : List Char) : Option Nat :=
  if cs.all Char.isDigit then
    some (cs.foldl (fun n c => 10 * n + (c.toNat - 48)) 0)
  else none

/-- Parse an optionally signed decimal literal, Python-`float`-style:
surrounding whitespace stripped, optional sign, digits with at most one
dot, at least one digit overall. -/
def parseDecimal (s : String) : Option ℚ :=
  let cs := (pyStrip s).data
  let signAndRest : ℚ × List Char :=
    match cs with
    | '+' :: rest => (1, rest)
    | '-' :: rest => (-1, rest)
    | _ => (1, cs)
  let sign := signAndRest.1
  let body := signAndRest.2
  match body.splitOn '.' with
  | [ip] =>
    if ip.isEmpty then none
    else (decDigits? ip).map (fun n => sign * (n : ℚ))
  | [ip, fp] =>
    if ip.isEmpty && fp.isEmpty then none
    else
      match decDigits? ip, decDigits? fp with
      | some i, some f =>
        some (sign * ((i : ℚ) + (f : ℚ) / ((10 : ℚ) ^ fp.length)))
      | _, _ => none
  | _ => none

/-- Python `float(value)` on a `Value` (`TypeError`/`ValueError` → `none`). -/
def pyFloat : Value → Option ℚ
  | .vNone => none
  | .vBool b => some (if b then 1 else 0)
  | .vInt n => some (n : ℚ)
  | .vFloat q => some q
  | .vStr s => parseDecimal s

/-- Error message for a failed pattern constraint (source f-string at
src/climax.py lines 306-309). -/
def patternMsg (name value : String) (pat : Regex) : String :=
  "Argument '" ++ name ++ "': value '" ++ value ++ "' does not match pattern '"
    ++ pat.render ++ "'"

/-- Error message for a value below the minimum (src/climax.py 314-318). -/
def minMsg (name : String) (value : Value) (m : ℚ) : String :=
  "Argument '" ++ name ++ "': value " ++ pyStr value ++ " is below minimum "
    ++ toString m

/-- Error message for a value above the maximum (src/climax.py 325-329). -/
def maxMsg (name : String) (value : Value) (m : ℚ) : String :=
  "Argument '" ++ name ++ "': value " ++ pyStr value ++ " exceeds maximum "
    ++ toString m

/-- One iteration of the `validate_arguments` loop (src/climax.py lines
298-331) over `(arg_name, constraint)`: skip absent arguments; check the
pattern against string values with `re.fullmatch`; check each bound after
`float(value)`, where the `try: ... except (TypeError, ValueError): pass`
blocks are transcribed as a match on `pyFloat`. -/
def vaStep (arguments : Args) (errors : List String) (p : String × ArgConstraint) :
    List String :=
  match alookup arguments p.1 with
  | none => errors
  | some value =>
    let errors :=
      match p.2.pattern, value with
      | some pat, .vStr s =>
        if fullmatch pat s then errors else errors ++ [patternMsg p.1 s pat]
      | _, _ => errors
    let errors :=
      match p.2.min with
      | some m =>
        match pyFloat value with
        | some num => if num < m then errors ++ [minMsg p.1 value m] else errors
        | none => errors
      | none => errors
    let errors :=
      match p.2.max with
      | some m =>
        match pyFloat value with
        | some num => if m < num then errors ++ [maxMsg p.1 value m] else errors
        | none => errors
      | none => errors
    errors

/-- Source `validate_arguments` (src/climax.py lines 286-333): check policy
constraints on provided values, accumulating error messages over the
loop on `constraints.items()`.  The `tool_def` parameter is unused, as
in the source. -/
def validate_arguments (arguments : Args) (tool_def : ToolDef)
    (constraints : List (String × ArgConstraint)) : List String :=
  constraints.foldl (vaStep arguments) []

/-- Spec-side description (claim wording): the error messages one present
constrained value contributes — a pattern error exactly when the regex
does not fully match a string value, a bound error exactly when the value
parses as a float and lies strictly outside the inclusive bound, and
nothing from a bound whose value does not parse. -/
def constraintErrors (name : String) (c : ArgConstraint) (value : Value) :
    List String :=
  (match c.pattern, value with
   | some pat, .vStr s => if fullmatch pat s then [] else [patternMsg name s pat]
   | _, _ => [])
  ++ (match c.min, pyFloat value with
      | some m, some num => if num < m then [minMsg name value m] else []
      | _, _ => [])
  ++ (match c.max, pyFloat value with
      | some m, some num => if m < num then [maxMsg name value m] else []
      | _, _ => [])

/-- The heap of `ResolvedTool` objects, indexed by address.  Mutation in
the Python source is modelled by explicit writes to this store, so that
frame claims ("the input registry is not mutated") become provable
statements about the store. -/
abbrev Store := List ResolvedTool

/-- A registry as Python sees it: an insertion-ordered dict from tool
name to a reference into the store. -/
abbrev Registry := List (String × Nat)

/-- Placeholder object for a dangling read (never hit on well-formed
states; its contents are irrelevant to every theorem below). -/
def dummyResolved : ResolvedTool :=
  { tool := { name := "", description := "" }, base_command := "" }

/-- One iteration of the `apply_policy` loop (src/climax.py lines
250-281) over `(name, addr)`: skip the tool when `default` is `disabled`
and it has no per-tool policy; otherwise clone the resolved tool
(`model_copy`) into a fresh store cell, apply the description override
and the filtered argument constraints to the clone only, and append the
clone's address to the result registry. -/
def applyPolicyStep (policy : PolicyConfig) (acc : Store × Registry)
    (entry : String × Nat) : Store × Registry :=
  let toolPolicy := alookup policy.tools entry.1
  if policy.default = .disabled ∧ toolPolicy = none then acc
  else
    let resolved := (acc.1.get? entry.2).getD dummyResolved
    let copy := resolved
    let copy :=
      match toolPolicy with
      | none => copy
      | some tp =>
        let copy :=
          match tp.description with
          | some d => { copy with description_override := some d }
          | none => copy
        if tp.args ≠ [] then
          let known := resolved.tool.args.map (·.name)
          { copy with arg_constraints := tp.args.filter (fun kv => known.contains kv.1) }
        else copy
    (acc.1 ++ [copy], acc.2 ++ [(entry.1, acc.1.length)])

/-- Source `apply_policy` (src/climax.py lines 230-283) over the explicit store:
iterate the input registry, building a fresh result dict; surviving tools
are cloned and overlaid.  The warnings for unknown tool/argument names
are diagnostics only and are omitted. -/
def apply_policy (store : Store) (tool_map : Registry) (policy : PolicyConfig) :
    Store × Registry :=
  tool_map.foldl (applyPolicyStep policy) (store, [])

/-- The child process's behaviour, abstracting the OS boundary: it either
finishes (with CPython's `returncode` being `Option Int`, `None` until
known), exceeds the timeout, or cannot be spawned
(`FileNotFoundError`). -/
inductive ChildBehavior where
  | finishes : Option Int → String → String → ChildBehavior
  | timesOut : ChildBehavior
  | spawnFails : ChildBehavior
deriving DecidableEq, Repr

/-- Result of `run_command`, with an explicit effect flag recording
whether `proc.kill()` was invoked. -/
structure RunResult where
  returncode : Int
  stdout : String
  stderr : String
  killedChild : Bool
deriving DecidableEq, Repr

/-- Source `run_command` (src/climax.py lines 458-496), with the subprocess
boundary abstracted into `ChildBehavior`: on normal completion return
`(proc.returncode or 0, stdout, stderr)`; on `asyncio.TimeoutError` kill
the process and return `-1` with a timeout message; on
`FileNotFoundError` return `-1` with a missing-command message.  Both
failure branches are ordinary returns — the function's codomain has no
error case.  The float `timeout` is rendered by `toString`. -/
def run_command (cmd : List String) (timeout : ℚ) (child : ChildBehavior) :
    RunResult :=
  match child with
  | .finishes rc out err =>
    { returncode := rc.getD 0, stdout := out, stderr := err, killedChild := false }
  | .timesOut =>
    { returncode := -1, stdout := ""
      stderr := "Command timed out after " ++ toString timeout ++ "s"
      killedChild := true }
  | .spawnFails =>
    { returncode := -1, stdout := ""
      stderr := "Command not found: " ++ cmd.headD ""
      killedChild := false }

/-- Response formatting in `call_tool` (src/climax.py lines 590-601):
collect the trimmed stdout, the tagged trimmed stderr, and an exit-code
marker for a non-zero code, join with blank lines, or report
"(no output)". -/
def formatResponse (returncode : Int) (stdout stderr : String) : String :=
  let parts : List String := []
  let parts := if pyStrip stdout ≠ "" then parts ++ [pyStrip stdout] else parts
  let parts := if pyStrip stderr ≠ "" then parts ++ ["[stderr]\n" ++ pyStrip stderr]
               else parts
  let parts := if returncode ≠ 0 then parts ++ ["[exit code: " ++ toString returncode ++ "]"]
               else parts
  if parts ≠ [] then String.intercalate "\n\n" parts else "(no output)"

/-- Spec-side description (claim wording): trimmed stdout if non-empty,
then `"[stderr]\n"` plus trimmed stderr if non-empty, then
`"[exit code: N]"` if the exit code is non-zero, joined by blank lines,
and `"(no output)"` when all three parts are empty/zero. -/
def formatResponseSpec (returncode : Int) (stdout stderr : String) : String :=
  let parts :=
    (if pyStrip stdout = "" then [] else [pyStrip stdout])
    ++ (if pyStrip stderr = "" then [] else ["[stderr]\n" ++ pyStrip stderr])
    ++ (if returncode = 0 then [] else ["[exit code: " ++ toString returncode ++ "]"])
  if parts = [] then "(no output)" else String.intercalate "\n\n" parts

/-- Parse a decimal string as an integer, Python-`int(str)`-style
(optional sign, digits only). -/
def parseIntStr (s : String) : Option Int :=
  let cs := (pyStrip s).data
  match cs with
  | '+' :: rest => if rest.isEmpty then none else (decDigits? rest).map (Int.ofNat)
  | '-' :: rest => if rest.isEmpty then none else (decDigits? rest).map (fun n => -(n : Int))
  | _ => if cs.isEmpty then none else (decDigits? cs).map (Int.ofNat)

/-- Modelled from the spec: type coercion of one present value (§4.1).
The implementing function (`validate_tool_args`) is referenced by the
repository's tests but is not part of src/climax.py.  Per the spec:
`string` stringifies any non-string; `integer`/`number` parse strings and
coerce booleans to 0/1, non-parseable values error naming the target
type; `boolean` coerces the case-sensitive strings "true"/"false" and
integers (zero/non-zero), any other shape errors. -/
def coerce_value : ArgType → Value → Except String Value
  | .string, .vStr s => .ok (.vStr s)
  | .string, v => .ok (.vStr (pyStr v))
  | .integer, .vInt n => .ok (.vInt n)
  | .integer, .vBool b => .ok (.vInt (if b then 1 else 0))
  | .integer, .vStr s =>
    match parseIntStr s with
    | some n => .ok (.vInt n)
    | none => .error "is not a valid integer"
  | .integer, _ => .error "is not a valid integer"
  | .number, .vFloat q => .ok (.vFloat q)
  | .number, .vInt n => .ok (.vFloat (n : ℚ))
  | .number, .vBool b => .ok (.vFloat (if b then 1 else 0))
  | .number, .vStr s =>
    match parseDecimal s with
    | some q => .ok (.vFloat q)
    | none => .error "is not a valid number"
  | .number, _ => .error "is not a valid number"
  | .boolean, .vBool b => .ok (.vBool b)
  | .boolean, .vStr "true" => .ok (.vBool true)
  | .boolean, .vStr "false" => .ok (.vBool false)
  | .boolean, .vInt n => .ok (.vBool (n ≠ 0))
  | .boolean, _ => .error "is not a valid boolean"

/-- Modelled from the spec: the error for an enum mismatch lists the
valid members (§4.1). -/
def enumMsg (name : String) (members : List String) : String :=
  "Argument '" ++ name ++ "' must be one of: " ++ String.intercalate ", " members

/-- Modelled from the spec: one step of argument validation/coercion
(§4.1) for a declared argument — absent and required errors
("missing/required"); absent and optional is skipped; a present value is
coerced to the declared type and then checked against the enum; unknown
keys are untouched because only declared arguments are visited. -/
def vtaStep (raw : Args) (acc : Args × List String) (a : ToolArg) :
    Args × List String :=
  match alookup raw a.name with
  | none =>
    if a.required then (acc.1, acc.2 ++ ["Missing required argument: " ++ a.name])
    else acc
  | some v =>
    match coerce_value a.type v with
    | .error m => (acc.1, acc.2 ++ ["Argument '" ++ a.name ++ "' " ++ m])
    | .ok cv =>
      match a.enum with
      | some members =>
        match cv with
        | .vStr s =>
          if members.contains s then (dictInsert acc.1 a.name cv, acc.2)
          else (acc.1, acc.2 ++ [enumMsg a.name members])
        | _ => (dictInsert acc.1 a.name cv, acc.2)
      | none => (dictInsert acc.1 a.name cv, acc.2)

/-- Modelled from the spec: `validate_tool_args` (§4.1) — the argument
validator/coercer, absent from src/climax.py though the repository's
tests reference it by name.  Walks the declared arguments collecting all
errors with no short-circuit; unknown keys in the input are preserved in
the coerced result. -/
def validate_tool_args (raw : Args) (tool_def : ToolDef) : Args × List String :=
  tool_def.args.foldl (vtaStep raw) (raw, [])

/-- One bullet per error, as the orchestrator formats them
(src/climax.py line 542). -/
def joinBullets (errors : List String) : String :=
  String.intercalate "\n" (errors.map (fun e => "  - " ++ e))

/-- The observable outcome of one invocation, separating the early-return
paths from actual execution so that "the command is never built or
executed" is a statement about constructors. -/
inductive CallOutcome where
  | unknownTool : String → CallOutcome
  | validationError : String → CallOutcome
  | policyError : String → CallOutcome
  | executed : List String → String → CallOutcome
deriving DecidableEq, Repr

/-- The invocation orchestrator `call_tool` (src/climax.py lines
528-601), with the subprocess boundary abstracted into `ChildBehavior`
and logging omitted.  Modelled from the spec: the argument
validation/coercion stage (§4.1, §6) that runs before the policy check —
it is exercised by the repository's tests but absent from src/climax.py;
the remaining stages (unknown-tool reply, policy check, per-tool timeout
`tool.timeout or 30.0`, command building, execution, response formatting)
transcribe the source.  The optional docker prefixing step is omitted (no
verified claim depends on it). -/
def call_tool (tool_map : List (String × ResolvedTool)) (name : String)
    (raw : Args) (child : ChildBehavior) : CallOutcome :=
  match alookup tool_map name with
  | none => .unknownTool ("Unknown tool: " ++ name)
  | some resolved =>
    let vta := validate_tool_args raw resolved.tool
    if vta.2 ≠ [] then
      .validationError ("Argument validation failed:\n" ++ joinBullets vta.2)
    else
      let perrs :=
        if resolved.arg_constraints ≠ [] then
          validate_arguments vta.1 resolved.tool resolved.arg_constraints
        else []
      if perrs ≠ [] then
        .policyError ("Policy validation failed:\n" ++ joinBullets perrs)
      else
        let cmd := build_command resolved.base_command resolved.tool vta.1
        let tool_timeout :=
          match resolved.tool.timeout with
          | some q => if q = 0 then 30 else q
          | none => 30
        let r := run_command cmd tool_timeout child
        .executed cmd (formatResponse r.returncode r.stdout r.stderr)

/-! ### Helper lemmas -/

theorem foldl_append_eq (f : α → List β) (l : List α) (init : List β) :
    l.foldl (fun c a => c ++ f a) init = init ++ l.flatMap f := by
  induction l generalizing init with
  | nil => simp
  | cons a l ih => simp [ih, List.append_assoc]

theorem pysplit_empty : pysplit "" = [] := rfl

theorem posFold_eq (arguments : Args) (l : List ToolArg) (init : List String) :
    l.foldl (fun c a =>
        c ++ (if a.positional && (alookup arguments a.name).isSome
              then [pyStr (pyGet arguments a.name)] else [])) init
      = init ++ (l.filter
            (fun a => a.positional && (alookup arguments a.name).isSome)).map
          (fun a => pyStr (pyGet arguments a.name)) := by
  induction l generalizing init with
  | nil => simp
  | cons a l ih =>
    rw [List.foldl_cons, List.filter_cons]
    by_cases h : (a.positional && (alookup arguments a.name).isSome) = true
    · rw [if_pos h, if_pos h, ih]
      simp [List.append_assoc]
    · rw [if_neg h, if_neg h, List.append_nil, ih]

theorem flagFold_eq (arguments : Args) (l : List ToolArg) (init : List String) :
    l.foldl (fun c a =>
        c ++ (if a.positional then [] else flagContrib arguments a)) init
      = init ++ (l.filter (fun a => !a.positional)).flatMap (flagContrib arguments) := by
  induction l generalizing init with
  | nil => simp
  | cons a l ih =>
    by_cases h : a.positional
    · simp [List.foldl_cons, h, ih]
    · simp [List.foldl_cons, h, ih, List.append_assoc]

theorem flagContrib_congr (args1 args2 : Args) (a : ToolArg)
    (h : alookup args1 a.name = alookup args2 a.name) :
    flagContrib args1 a = flagContrib args2 a := by
  unfold flagContrib resolveFlagValue pyGet
  rw [h]

theorem flatMap_congr_of_mem {l : List α} {f g : α → List β}
    (h : ∀ a ∈ l, f a = g a) : l.flatMap f = l.flatMap g := by
  induction l with
  | nil => rfl
  | cons a l ih =>
    simp only [List.flatMap_cons]
    rw [h a (List.mem_cons_self a l), ih (fun x hx => h x (List.mem_cons_of_mem a hx))]

/-! ### Claim theorems -/

/-- C2: for every base command, tool spec, and argument map,
`build_command` returns the whitespace-split base command, then the
whitespace-split subcommand tokens, then every present positional
argument in declaration order, then every non-positional argument's
contribution in declaration order — so positional arguments always
precede flag arguments regardless of declaration order.  The function is
total by construction, so it never raises for well-formed specs, and
being a function of its inputs the token order is deterministic. -/
theorem build_command_order (base_cmd : String) (tool_def : ToolDef)
    (arguments : Args) :
    build_command base_cmd tool_def arguments =
      pysplit base_cmd ++ pysplit tool_def.command
        ++ positionalTokens tool_def arguments
        ++ flagPassTokens tool_def arguments := by
  unfold build_command positionalTokens flagPassTokens
  dsimp only
  rw [flagFold_eq, posFold_eq]
  by_cases hc : tool_def.command = ""
  · rw [if_neg (by simp [hc]), hc, pysplit_empty]
    simp [List.append_assoc]
  · rw [if_pos hc]

/-- C10: `build_command` reads the argument map only at the tool's
declared argument names: any two argument maps that agree there produce
identical token lists, so undeclared keys never influence the output. -/
theorem build_command_undeclared_keys_irrelevant (base_cmd : String)
    (tool_def : ToolDef) (args1 args2 : Args)
    (h : ∀ a ∈ tool_def.args, alookup args1 a.name = alookup args2 a.name) :
    build_command base_cmd tool_def args1 = build_command base_cmd tool_def args2 := by
  unfold build_command
  dsimp only
  rw [flagFold_eq, posFold_eq, flagFold_eq, posFold_eq]
  have hfilterPos :
      tool_def.args.filter (fun a => a.positional && (alookup args1 a.name).isSome)
        = tool_def.args.filter (fun a => a.positional && (alookup args2 a.name).isSome) :=
    List.filter_congr (fun a ha => by rw [h a ha])
  have hmap :
      ∀ l : List ToolArg, (∀ a ∈ l, a ∈ tool_def.args) →
        l.map (fun a => pyStr (pyGet args1 a.name))
          = l.map (fun a => pyStr (pyGet args2 a.name)) := by
    intro l hl
    refine List.map_congr_left (fun a ha => ?_)
    unfold pyGet
    rw [h a (hl a ha)]
  have hflat :
      (tool_def.args.filter (fun a => !a.positional)).flatMap (flagContrib args1)
        = (tool_def.args.filter (fun a => !a.positional)).flatMap (flagContrib args2) := by
    refine flatMap_congr_of_mem (fun a ha => ?_)
    exact flagContrib_congr args1 args2 a (h a (List.mem_of_mem_filter ha))
  rw [hfilterPos, hflat,
    hmap _ (fun a ha => List.mem_of_mem_filter ha)]

/-- C10 witness: a junk key absent from the declared arguments does not
change the built command. -/
theorem build_command_undeclared_keys_irrelevant_witness :
    build_command "git"
        { name := "t", description := "d", command := "add",
          args := [{ name := "path", positional := true }] }
        [("path", Value.vStr "README.md"), ("junk", Value.vStr "evil")]
      = build_command "git"
          { name := "t", description := "d", command := "add",
            args := [{ name := "path", positional := true }] }
          [("path", Value.vStr "README.md")] :=
  build_command_undeclared_keys_irrelevant "git" _ _ _ (by decide)

/-- C3 counterexample: the integer `1` is truthy in Python, yet
`build_command` omits the boolean flag for it — the flag is appended only
for the boolean `True` or the exact string `"true"`, not for every truthy
resolved value as the claim states. -/
theorem bool_flag_truthy_counterexample :
    pyTruthy (Value.vInt 1) = true ∧
    build_command "prog"
        { name := "t", description := "d",
          args := [{ name := "v", type := ArgType.boolean }] }
        [("v", Value.vInt 1)]
      = ["prog"] := by
  constructor
  · rfl
  · rfl

/-- C3 amended: for a non-positional argument of boolean type,
`build_command`'s flag pass appends only the flag token — never a value
token — and appends it exactly when the resolved value (explicit value,
else default) is the boolean `True` or the exact string `"true"`; any
other value, truthy or not, omits the flag. -/
theorem bool_flag_rule (args : Args) (a : ToolArg)
    (h : a.type = ArgType.boolean) :
    flagContrib args a = boolFlagSpec args a := by
  unfold flagContrib boolFlagSpec
  dsimp only
  by_cases hv : resolveFlagValue args a = Value.vNone
  · rw [if_pos hv, hv]
    simp
  · rw [if_neg hv, if_pos h]

/-- C3 amended witness: a boolean flag with an explicit `--short` flag and
the value `true` contributes exactly the flag token. -/
theorem bool_flag_rule_witness :
    flagContrib [("short", Value.vBool true)]
        { name := "short", type := ArgType.boolean, flag := some "--short" }
      = boolFlagSpec [("short", Value.vBool true)]
          { name := "short", type := ArgType.boolean, flag := some "--short" } ∧
    boolFlagSpec [("short", Value.vBool true)]
        { name := "short", type := ArgType.boolean, flag := some "--short" }
      = ["--short"] :=
  ⟨bool_flag_rule _ _ rfl, by decide⟩

/-- C5: the formatted text response of an execution result is the trimmed
stdout if non-empty, then `"[stderr]\n"` plus the trimmed stderr if
non-empty, then `"[exit code: N]"` if the exit code is non-zero, joined
by blank lines, and `"(no output)"` when all three parts are
empty/zero.  A non-zero child exit flows through this formatting as an
ordinary value (see `run_command`/`call_tool`), never as a fault. -/
theorem format_response_correct (returncode : Int) (stdout stderr : String) :
    formatResponse returncode stdout stderr
      = formatResponseSpec returncode stdout stderr := by
  unfold formatResponse formatResponseSpec
  dsimp only
  by_cases h1 : pyStrip stdout = "" <;> by_cases h2 : pyStrip stderr = "" <;>
    by_cases h3 : returncode = 0 <;> simp [h1, h2, h3]

theorem vaStep_eq (arguments : Args) (errors : List String)
    (p : String × ArgConstraint) :
    vaStep arguments errors p
      = errors ++ (match alookup arguments p.1 with
          | none => []
          | some v => constraintErrors p.1 p.2 v) := by
  unfold vaStep constraintErrors
  cases ha : alookup arguments p.1 with
  | none => simp
  | some v =>
    dsimp only
    rcases hf : pyFloat v with _ | num <;> clear hf <;>
      rcases p.2.pattern with _ | pat <;>
        rcases p.2.min with _ | m1 <;>
          rcases p.2.max with _ | m2 <;>
            cases v <;>
              simp [List.append_assoc] <;>
                (repeat' split) <;> simp [List.append_assoc]

/-- C6: `validate_arguments` checks each constrained argument present in
the values map and nothing else; each present value contributes exactly
the errors described by `constraintErrors` — a pattern error iff the
regex does not fully match the string value, inclusive bound errors only
when the value parses as a float (non-numeric values silently skip the
bound check) — and all violations are collected in loop order with no
short-circuit. -/
theorem validate_arguments_semantics (arguments : Args) (tool_def : ToolDef)
    (constraints : List (String × ArgConstraint)) :
    validate_arguments arguments tool_def constraints
      = constraints.flatMap (fun p =>
          match alookup arguments p.1 with
          | none => []
          | some v => constraintErrors p.1 p.2 v) := by
  unfold validate_arguments
  have h : ∀ (l : List (String × ArgConstraint)) (init : List String),
      l.foldl (vaStep arguments) init
        = init ++ l.flatMap (fun p =>
            match alookup arguments p.1 with
            | none => []
            | some v => constraintErrors p.1 p.2 v) := by
    intro l
    induction l with
    | nil => intro init; simp
    | cons q l ih =>
      intro init
      rw [List.foldl_cons, vaStep_eq, ih, List.append_assoc]
      simp
  simpa using h constraints []

/-- C4: `run_command` is total — a timeout and a spawn failure are
ordinary return values, not exceptions.  On timeout the child is killed
and the result is exit code `-1` with a stderr message naming the elapsed
timeout; on spawn failure the result is exit code `-1` with a stderr
message naming the missing command. -/
theorem run_command_failure_modes (cmd : List String) (timeout : ℚ) :
    ((run_command cmd timeout .timesOut).returncode = -1
      ∧ (run_command cmd timeout .timesOut).killedChild = true
      ∧ ∃ pre post : List Char,
          (run_command cmd timeout .timesOut).stderr.data
            = pre ++ (toString timeout).data ++ post)
    ∧ ((run_command cmd timeout .spawnFails).returncode = -1
      ∧ (run_command cmd timeout .spawnFails).killedChild = false
      ∧ ∃ pre post : List Char,
          (run_command cmd timeout .spawnFails).stderr.data
            = pre ++ (cmd.headD "").data ++ post) := by
  refine ⟨⟨rfl, rfl, ⟨"Command timed out after ".data, "s".data, ?_⟩⟩,
          ⟨rfl, rfl, ⟨"Command not found: ".data, [], ?_⟩⟩⟩
  · show (("Command timed out after " ++ toString timeout ++ "s") : String).data = _
    simp [String.data_append]
  · show (("Command not found: " ++ cmd.headD "") : String).data = _
    simp [String.data_append]

theorem applyPolicyStep_shape (policy : PolicyConfig) (acc : Store × Registry)
    (e : String × Nat) :
    applyPolicyStep policy acc e = acc ∨
    ∃ c, applyPolicyStep policy acc e
      = (acc.1 ++ [c], acc.2 ++ [(e.1, acc.1.length)]) := by
  unfold applyPolicyStep
  by_cases h : policy.default = .disabled ∧ alookup policy.tools e.1 = none
  · left
    rw [if_pos h]
  · right
    exact ⟨_, by rw [if_neg h]⟩

theorem apply_policy_extends (policy : PolicyConfig) (reg : Registry)
    (acc : Store × Registry) :
    ∃ ext outExt,
      reg.foldl (applyPolicyStep policy) acc = (acc.1 ++ ext, acc.2 ++ outExt)
        ∧ ∀ p ∈ outExt, acc.1.length ≤ p.2 := by
  induction reg generalizing acc with
  | nil => exact ⟨[], [], by simp, by simp⟩
  | cons e reg ih =>
    rw [List.foldl_cons]
    rcases applyPolicyStep_shape policy acc e with hstep | ⟨c, hstep⟩
    · rw [hstep]
      exact ih acc
    · rw [hstep]
      obtain ⟨ext, outExt, heq, hge⟩ := ih (acc.1 ++ [c], acc.2 ++ [(e.1, acc.1.length)])
      refine ⟨[c] ++ ext, [(e.1, acc.1.length)] ++ outExt, ?_, ?_⟩
      · rw [heq]
        simp [List.append_assoc]
      · intro p hp
        rcases List.mem_append.mp hp with hp | hp
        · rcases List.mem_singleton.mp hp with rfl
          exact le_refl _
        · have := hge p hp
          simp only [List.length_append, List.length_singleton] at this
          omega

/-- C7: `apply_policy` does not mutate its input registry.  In the
explicit-store model every pre-existing store cell is left unchanged (the
output store extends the input store), and every entry of the returned
registry points at a freshly allocated cell, so the result is a
structurally independent copy. -/
theorem apply_policy_no_mutation (store : Store) (tool_map : Registry)
    (policy : PolicyConfig) :
    (apply_policy store tool_map policy).1.take store.length = store
    ∧ ((apply_policy store tool_map policy).2.all
        (fun p => store.length ≤ p.2)) = true := by
  obtain ⟨ext, outExt, heq, hge⟩ := apply_policy_extends policy tool_map (store, [])
  unfold apply_policy
  rw [heq]
  constructor
  · exact List.take_left store ext
  · rw [List.all_eq_true]
    intro p hp
    simp only [List.nil_append] at hp
    exact decide_eq_true (hge p hp)

/-- C9: a `PolicyConfig` built without an explicit `default` field
defaults to `disabled`; consequently applying a policy document with no
per-tool entries to any registry (in particular any non-empty one)
returns an empty registry — every tool is dropped and the store is left
as it was. -/
theorem policy_default_disabled_drops_all :
    (({} : PolicyConfig).default = DefaultPolicy.disabled)
    ∧ ∀ (e : ExecutorConfig) (store : Store) (tool_map : Registry),
        apply_policy store tool_map { executor := e, tools := [] }
          = (store, []) := by
  refine ⟨rfl, ?_⟩
  intro e store tool_map
  unfold apply_policy
  have h : ∀ (reg : Registry) (acc : Store × Registry),
      reg.foldl (applyPolicyStep { executor := e, tools := [] }) acc = acc := by
    intro reg
    induction reg with
    | nil => intro acc; rfl
    | cons x reg ih =>
      intro acc
      rw [List.foldl_cons,
        show applyPolicyStep { executor := e, tools := [] } acc x = acc from by
          unfold applyPolicyStep
          rw [if_pos ⟨rfl, rfl⟩]]
      exact ih acc
  exact h tool_map (store, [])

theorem alookup_replace_self (m : List (String × α)) (k : String) (v : α)
    (h : (alookup m k).isSome) :
    alookup (m.map (fun p => if p.1 = k then (k, v) else p)) k = some v := by
  induction m with
  | nil => simp [alookup] at h
  | cons p m ih =>
    rw [List.map_cons]
    by_cases hk : p.1 = k
    · rw [if_pos hk]
      simp [alookup]
    · rw [if_neg hk]
      simp only [alookup] at h ⊢
      rw [if_neg hk] at h ⊢
      exact ih h

theorem alookup_replace_ne (m : List (String × α)) (k x : String) (v : α)
    (h : x ≠ k) :
    alookup (m.map (fun p => if p.1 = k then (k, v) else p)) x = alookup m x := by
  induction m with
  | nil => rfl
  | cons p m ih =>
    rw [List.map_cons]
    by_cases hk : p.1 = k
    · rw [if_pos hk]
      simp only [alookup]
      rw [if_neg (show ¬(k = x) from fun e => h e.symm),
        if_neg (show ¬(p.1 = x) from hk ▸ fun e => h e.symm)]
      exact ih
    · rw [if_neg hk]
      simp only [alookup]
      by_cases hx : p.1 = x
      · rw [if_pos hx, if_pos hx]
      · rw [if_neg hx, if_neg hx]
        exact ih

theorem alookup_append_one (m : List (String × α)) (k x : String) (v : α)
    (h : alookup m x = none) :
    alookup (m ++ [(k, v)]) x = if k = x then some v else none := by
  induction m with
  | nil => rfl
  | cons p m ih =>
    by_cases hx : p.1 = x
    · simp [alookup, hx] at h
    · rw [List.cons_append]
      simp only [alookup] at h ⊢
      rw [if_neg hx] at h ⊢
      exact ih h

theorem alookup_dictInsert_self (m : List (String × α)) (k : String) (v : α) :
    alookup (dictInsert m k v) k = some v := by
  unfold dictInsert
  by_cases h : (alookup m k).isSome
  · rw [if_pos h]
    exact alookup_replace_self m k v h
  · rw [if_neg h]
    have hnone : alookup m k = none := by
      cases he : alookup m k with
      | none => rfl
      | some w => rw [he] at h; simp at h
    rw [alookup_append_one m k k v hnone, if_pos rfl]

theorem alookup_dictInsert_ne (m : List (String × α)) (k x : String) (v : α)
    (h : x ≠ k) :
    alookup (dictInsert m k v) x = alookup m x := by
  unfold dictInsert
  by_cases hp : (alookup m k).isSome
  · rw [if_pos hp]
    exact alookup_replace_ne m k x v h
  · rw [if_neg hp]
    cases he : alookup m x with
    | some w =>
      induction m with
      | nil => simp [alookup] at he
      | cons p m ih =>
        simp only [alookup, List.cons_append] at he ⊢
        by_cases hx : p.1 = x
        · rw [if_pos hx] at he ⊢
          exact he
        · rw [if_neg hx] at he ⊢
          exact ih (by
            intro hsome
            exact hp (by
              simp only [alookup] at hsome ⊢
              by_cases hk2 : p.1 = k
              · rw [if_pos hk2]; rfl
              · rw [if_neg hk2]; exact hsome)) he
    | none =>
      rw [alookup_append_one m k x v he, if_neg (fun e => h e.symm)]

theorem alookup_isSome_iff_mem_keys (m : List (String × α)) (x : String) :
    (alookup m x).isSome = true ↔ x ∈ m.map Prod.fst := by
  induction m with
  | nil => simp [alookup]
  | cons p m ih =>
    simp only [alookup, List.map_cons, List.mem_cons]
    by_cases hx : p.1 = x
    · simp [hx]
    · rw [if_neg hx]
      simp only [ih]
      constructor
      · exact Or.inr
      · rintro (h | h)
        · exact absurd h.symm hx
        · exact h

theorem keys_dictInsert_present (m : List (String × α)) (k : String) (v : α)
    (h : (alookup m k).isSome) :
    (dictInsert m k v).map Prod.fst = m.map Prod.fst := by
  unfold dictInsert
  rw [if_pos h, List.map_map]
  refine List.map_congr_left (fun p _ => ?_)
  by_cases hk : p.1 = k <;> simp [hk]

theorem keys_dictInsert_absent (m : List (String × α)) (k : String) (v : α)
    (h : ¬(alookup m k).isSome) :
    (dictInsert m k v).map Prod.fst = m.map Prod.fst ++ [k] := by
  unfold dictInsert
  rw [if_neg h]
  simp

theorem keys_dictInsert_nodup (m : List (String × α)) (k : String) (v : α)
    (h : (m.map Prod.fst).Nodup) :
    ((dictInsert m k v).map Prod.fst).Nodup := by
  by_cases hp : (alookup m k).isSome
  · rw [keys_dictInsert_present m k v hp]
    exact h
  · rw [keys_dictInsert_absent m k v hp]
    have hk : k ∉ m.map Prod.fst := fun hmem =>
      hp ((alookup_isSome_iff_mem_keys m k).mpr hmem)
    simp [List.nodup_append, h, hk]

theorem alookup_toolFold (config : CLImaxConfig) (tds : List ToolDef)
    (m : List (String × ResolvedTool)) (x : String) :
    alookup (tds.foldl (insertTool config) m) x
      = match lastNamed tds x with
        | some td => some (resolveFromConfig config td)
        | none => alookup m x := by
  induction tds generalizing m with
  | nil => rfl
  | cons td tds ih =>
    rw [List.foldl_cons, ih]
    show _ = (match lastNamed (td :: tds) x with
      | some td' => some (resolveFromConfig config td')
      | none => alookup m x)
    rw [lastNamed]
    cases h : lastNamed tds x with
    | some td' => rfl
    | none =>
      dsimp only
      by_cases hk : td.name = x
      · rw [if_pos hk]
        unfold insertTool
        rw [← hk]
        exact alookup_dictInsert_self m td.name (resolveFromConfig config td)
      · rw [if_neg hk]
        exact alookup_dictInsert_ne m td.name x _ (fun e => hk e.symm)

theorem keys_toolFold_extends (config : CLImaxConfig) (tds : List ToolDef)
    (m : List (String × ResolvedTool)) :
    ∃ ext, (tds.foldl (insertTool config) m).map Prod.fst
      = m.map Prod.fst ++ ext := by
  induction tds generalizing m with
  | nil => exact ⟨[], by simp⟩
  | cons td tds ih =>
    rw [List.foldl_cons]
    obtain ⟨ext, hext⟩ := ih (insertTool config m td)
    by_cases hp : (alookup m td.name).isSome
    · rw [hext]
      unfold insertTool
      rw [keys_dictInsert_present m td.name _ hp]
      exact ⟨ext, rfl⟩
    · rw [hext]
      unfold insertTool
      rw [keys_dictInsert_absent m td.name _ hp]
      exact ⟨[td.name] ++ ext, by simp⟩

theorem keys_toolFold_nodup (config : CLImaxConfig) (tds : List ToolDef)
    (m : List (String × ResolvedTool)) (h : (m.map Prod.fst).Nodup) :
    ((tds.foldl (insertTool config) m).map Prod.fst).Nodup := by
  induction tds generalizing m with
  | nil => exact h
  | cons td tds ih =>
    rw [List.foldl_cons]
    exact ih _ (keys_dictInsert_nodup m td.name _ h)

theorem firstIdx_append_of_mem (l l2 : List String) (x : String) (h : x ∈ l) :
    firstIdx (l ++ l2) x = firstIdx l x := by
  induction l with
  | nil => cases h
  | cons k ks ih =>
    rw [List.cons_append, firstIdx, firstIdx]
    by_cases hk : k = x
    · rw [if_pos hk, if_pos hk]
    · rw [if_neg hk, if_neg hk,
        ih (by rcases List.mem_cons.mp h with h | h
               · exact absurd h.symm hk
               · exact h)]

theorem firstIdx_lt_length (l : List String) (x : String) (h : x ∈ l) :
    firstIdx l x < l.length := by
  induction l with
  | nil => cases h
  | cons k ks ih =>
    rw [firstIdx, List.length_cons]
    by_cases hk : k = x
    · rw [if_pos hk]
      exact Nat.succ_pos _
    · rw [if_neg hk]
      have : x ∈ ks := by
        rcases List.mem_cons.mp h with h | h
        · exact absurd h.symm hk
        · exact h
      exact Nat.succ_lt_succ (ih this)

/-- C8 counterexample: config A defines tools `x`, `y`; config B then
defines `z` and redefines `x`.  The final registry holds exactly one
entry `x` carrying B's definition, but its position is A's original
insertion point (index 0, before `z`), not B's insertion point (which
would place `x` after `z`) — Python dict assignment to an existing key
keeps the key's original position. -/
theorem load_configs_duplicate_position_counterexample :
    ((load_configs
        [{ name := "a", command := "acmd",
           tools := [{ name := "x", description := "xa" },
                     { name := "y", description := "y" }] },
         { name := "b", command := "bcmd",
           tools := [{ name := "z", description := "z" },
                     { name := "x", description := "xb" }] }]).2.map Prod.fst
      = ["x", "y", "z"])
    ∧ (alookup (load_configs
        [{ name := "a", command := "acmd",
           tools := [{ name := "x", description := "xa" },
                     { name := "y", description := "y" }] },
         { name := "b", command := "bcmd",
           tools := [{ name := "z", description := "z" },
                     { name := "x", description := "xb" }] }]).2 "x"
      = some { tool := { name := "x", description := "xb" },
               base_command := "bcmd" })
    ∧ firstIdx ((load_configs
        [{ name := "a", command := "acmd",
           tools := [{ name := "x", description := "xa" },
                     { name := "y", description := "y" }] },
         { name := "b", command := "bcmd",
           tools := [{ name := "z", description := "z" },
                     { name := "x", description := "xb" }] }]).2.map Prod.fst) "x"
      = 0 := by
  refine ⟨?_, ?_, ?_⟩ <;> decide

/-- C8 amended: when a later config redefines a tool name that an earlier
config already registered, the final registry contains exactly one entry
under that name, carrying the last-loaded definition (fully replacing the
earlier value), but positioned at the earlier entry's original insertion
point in the registry's insertion order — not at the later spec's
insertion point. -/
theorem load_configs_duplicate_last_wins (A B : CLImaxConfig) (x : String)
    (tdB : ToolDef)
    (hA : x ∈ ((load_configs [A]).2.map Prod.fst))
    (hB : lastNamed B.tools x = some tdB) :
    ((load_configs [A, B]).2.map Prod.fst).count x = 1
    ∧ alookup (load_configs [A, B]).2 x = some (resolveFromConfig B tdB)
    ∧ firstIdx ((load_configs [A, B]).2.map Prod.fst) x
        = firstIdx ((load_configs [A]).2.map Prod.fst) x := by
  have hreg : (load_configs [A, B]).2
      = B.tools.foldl (insertTool B) ((load_configs [A]).2) := by
    simp [load_configs]
  obtain ⟨ext, hext⟩ := keys_toolFold_extends B B.tools ((load_configs [A]).2)
  have hkeys : ((load_configs [A, B]).2.map Prod.fst)
      = ((load_configs [A]).2.map Prod.fst) ++ ext := by
    rw [hreg, hext]
  have hnodupA : (((load_configs [A]).2).map Prod.fst).Nodup := by
    have : (load_configs [A]).2 = A.tools.foldl (insertTool A) [] := by
      simp [load_configs]
    rw [this]
    exact keys_toolFold_nodup A A.tools [] (by simp)
  have hnodup : (((load_configs [A, B]).2).map Prod.fst).Nodup := by
    rw [hreg]
    exact keys_toolFold_nodup B B.tools _ hnodupA
  have hmem : x ∈ ((load_configs [A, B]).2.map Prod.fst) := by
    rw [hkeys]
    exact List.mem_append_left ext hA
  refine ⟨List.count_eq_one_of_mem hnodup hmem, ?_, ?_⟩
  · rw [hreg, alookup_toolFold, hB]
  · rw [hkeys]
    exact firstIdx_append_of_mem _ ext x hA

/-- C8 amended witness: concrete two-config scenario instantiating the
amended duplicate-handling theorem. -/
theorem load_configs_duplicate_last_wins_witness :
    ((load_configs
        [{ name := "a", command := "acmd",
           tools := [{ name := "x", description := "xa" },
                     { name := "y", description := "y" }] },
         { name := "b", command := "bcmd",
           tools := [{ name := "z", description := "z" },
                     { name := "x", description := "xb" }] }]).2.map Prod.fst).count "x" = 1
    ∧ alookup (load_configs
        [{ name := "a", command := "acmd",
           tools := [{ name := "x", description := "xa" },
                     { name := "y", description := "y" }] },
         { name := "b", command := "bcmd",
           tools := [{ name := "z", description := "z" },
                     { name := "x", description := "xb" }] }]).2 "x"
      = some (resolveFromConfig
          { name := "b", command := "bcmd",
            tools := [{ name := "z", description := "z" },
                      { name := "x", description := "xb" }] }
          { name := "x", description := "xb" })
    ∧ firstIdx ((load_configs
        [{ name := "a", command := "acmd",
           tools := [{ name := "x", description := "xa" },
                     { name := "y", description := "y" }] },
         { name := "b", command := "bcmd",
           tools := [{ name := "z", description := "z" },
                     { name := "x", description := "xb" }] }]).2.map Prod.fst) "x"
      = firstIdx ((load_configs
          [{ name := "a", command := "acmd",
             tools := [{ name := "x", description := "xa" },
                       { name := "y", description := "y" }] }]).2.map Prod.fst) "x" :=
  load_configs_duplicate_last_wins _ _ "x" _ (by decide) (by decide)

theorem vtaStep_errors_extend (raw : Args) (acc : Args × List String)
    (a : ToolArg) :
    ∃ ext, (vtaStep raw acc a).2 = acc.2 ++ ext := by
  unfold vtaStep
  rcases alookup raw a.name with _ | v
  · dsimp only
    by_cases hr : a.required = true
    · rw [if_pos hr]
      exact ⟨_, rfl⟩
    · rw [if_neg hr]
      exact ⟨[], (List.append_nil _).symm⟩
  · dsimp only
    rcases coerce_value a.type v with m | cv
    · exact ⟨_, rfl⟩
    · rcases a.enum with _ | members
      · exact ⟨[], (List.append_nil _).symm⟩
      · rcases cv with _ | b | n | q | s
        · exact ⟨[], (List.append_nil _).symm⟩
        · exact ⟨[], (List.append_nil _).symm⟩
        · exact ⟨[], (List.append_nil _).symm⟩
        · exact ⟨[], (List.append_nil _).symm⟩
        · dsimp only
          by_cases hc : members.contains s = true
          · rw [if_pos hc]
            exact ⟨[], (List.append_nil _).symm⟩
          · rw [if_neg hc]
            exact ⟨_, rfl⟩

theorem vtaFold_errors_extend (raw : Args) (l : List ToolArg)
    (acc : Args × List String) :
    ∃ ext, (l.foldl (vtaStep raw) acc).2 = acc.2 ++ ext := by
  induction l generalizing acc with
  | nil => exact ⟨[], (List.append_nil _).symm⟩
  | cons a l ih =>
    rw [List.foldl_cons]
    obtain ⟨e1, h1⟩ := vtaStep_errors_extend raw acc a
    obtain ⟨e2, h2⟩ := ih (vtaStep raw acc a)
    exact ⟨e1 ++ e2, by rw [h2, h1, List.append_assoc]⟩

theorem vta_missing_required (raw : Args) (t : ToolDef) (a : ToolArg)
    (ha : a ∈ t.args) (hreq : a.required = true)
    (hmiss : alookup raw a.name = none) :
    (validate_tool_args raw t).2 ≠ [] := by
  unfold validate_tool_args
  obtain ⟨s, t2, heq⟩ := List.append_of_mem ha
  rw [heq, List.foldl_append, List.foldl_cons]
  have hstep : (vtaStep raw (s.foldl (vtaStep raw) (raw, [])) a).2
      = (s.foldl (vtaStep raw) (raw, [])).2
        ++ ["Missing required argument: " ++ a.name] := by
    unfold vtaStep
    rw [hmiss]
    dsimp only
    rw [if_pos hreq]
  obtain ⟨ext, hext⟩ :=
    vtaFold_errors_extend raw t2 (vtaStep raw (s.foldl (vtaStep raw) (raw, [])) a)
  rw [hext, hstep]
  intro hcontra
  simp at hcontra

/-- C1: invoking a registered tool runs argument validation/coercion over
the tool's declared arguments before anything else; in particular when a
required argument is absent from the raw argument map the invocation
returns an `"Argument validation failed"` response carrying one bullet
per collected error, and the command is never built or executed (the
outcome is a `validationError`, never `executed`). -/
theorem call_tool_validates_first (tool_map : List (String × ResolvedTool))
    (name : String) (resolved : ResolvedTool) (raw : Args)
    (child : ChildBehavior)
    (hfind : alookup tool_map name = some resolved)
    (hmissing : ∃ a ∈ resolved.tool.args,
        a.required = true ∧ alookup raw a.name = none) :
    (call_tool tool_map name raw child
        = .validationError ("Argument validation failed:\n"
            ++ joinBullets (validate_tool_args raw resolved.tool).2))
    ∧ (validate_tool_args raw resolved.tool).2 ≠ []
    ∧ ∀ cmd text, call_tool tool_map name raw child ≠ .executed cmd text := by
  obtain ⟨a, ha, hreq, hmiss⟩ := hmissing
  have hne := vta_missing_required raw resolved.tool a ha hreq hmiss
  have hcall : call_tool tool_map name raw child
      = .validationError ("Argument validation failed:\n"
          ++ joinBullets (validate_tool_args raw resolved.tool).2) := by
    unfold call_tool
    rw [hfind]
    dsimp only
    rw [if_pos hne]
  refine ⟨hcall, hne, fun cmd text hexec => ?_⟩
  rw [hcall] at hexec
  exact CallOutcome.noConfusion hexec

/-- C1 witness: a tool with a required `message` argument invoked with an
empty argument map yields the validation-failure outcome. -/
theorem call_tool_validates_first_witness :
    (call_tool
        [("commit",
          { tool := { name := "commit", description := "d",
                      args := [{ name := "message", required := true }] },
            base_command := "git" })]
        "commit" [] (.finishes (some 0) "" "")
      = .validationError ("Argument validation failed:\n"
          ++ joinBullets (validate_tool_args []
              { name := "commit", description := "d",
                args := [{ name := "message", required := true }] }).2))
    ∧ (validate_tool_args []
        ({ name := "commit", description := "d",
           args := [{ name := "message", required := true }] } : ToolDef)).2 ≠ []
    ∧ ∀ cmd text,
        call_tool
          [("commit",
            { tool := { name := "commit", description := "d",
                        args := [{ name := "message", required := true }] },
              base_command := "git" })]
          "commit" [] (.finishes (some 0) "" "") ≠ .executed cmd text :=
  call_tool_validates_first
    [("commit",
      { tool := { name := "commit", description := "d",
                  args := [{ name := "message", required := true }] },
        base_command := "git" })]
    "commit"
    { tool := { name := "commit", description := "d",
                args := [{ name := "message", required := true }] },
      base_command := "git" }
    [] (.finishes (some 0) "" "") (by decide) (by decide)

end Climax
